import Mathlib

/-!
Verification of the nanomachine finite state machine engine (src/src/lib.rs,
src/src/error.rs) against its specification.

The Rust `Machine<S, E>` holds a current state, a transition table
`HashMap<E, HashMap<S, S>>` and a callback registry
`HashMap<Trigger<S>, Vec<Callback<E>>>`.  Hash maps are modelled as
association lists with unique-key insert/overwrite semantics (`alistFind`,
`alistInsert`, `alistModify` model `get`, `insert`, and the
`entry(k).or_default()` idiom).  Type-erased payloads (`&dyn Any`) are
modelled by a runtime type identifier plus an opaque value; a registered
callback is modelled by its identity (`cid`) together with the behaviour
of its wrapping thunk (`CallbackSpec`): the `wrap_callback` thunk fires
exactly when the runtime type id of the payload equals the registered one,
while the no-payload thunks of `on_enter` / `on_transition` always fire.
Triggering returns the updated machine, the `Result` value, and the ordered
trace of user callbacks that were invoked.
-/

namespace Nanomachine

/-- Lookup in an association list, modelling `HashMap::get`. -/
def alistFind {α β : Type} [DecidableEq α] : List (α × β) → α → Option β
  | [], _ => none
  | (k, v) :: rest, key => if k = key then some v else alistFind rest key

/-- Insert into an association list, overwriting the value when the key is
already present, modelling `HashMap::insert`. -/
def alistInsert {α β : Type} [DecidableEq α] : List (α × β) → α → β → List (α × β)
  | [], key, val => [(key, val)]
  | (k, v) :: rest, key, val =>
    if k = key then (key, val) :: rest else (k, v) :: alistInsert rest key val

/-- Apply `f` to the value stored at `key`, inserting `f dflt` when the key is
absent; models the `map.entry(key).or_default()` idiom followed by a mutation
of the obtained entry. -/
def alistModify {α β : Type} [DecidableEq α] (dflt : β) (f : β → β) :
    List (α × β) → α → List (α × β)
  | [], key => [(key, f dflt)]
  | (k, v) :: rest, key =>
    if k = key then (key, f v) :: rest else (k, v) :: alistModify dflt f rest key

/-- Left-biased choice on options. -/
def optOr {α : Type} : Option α → Option α → Option α
  | some v, _ => some v
  | none, o => o

/-- The error type of src/src/error.rs. -/
inductive MachineError where
  /-- The specified event is not defined in the state machine. -/
  | EventInvalid
  /-- The event is defined for this machine but not valid from the current
  state. -/
  | StateInvalid
deriving DecidableEq, Repr

/-- A trigger key for callbacks, either a specific state or any state,
modelling `enum Trigger<S>`. -/
inductive Trigger (S : Type) where
  /-- Callback fires when entering this specific state. -/
  | state : S → Trigger S
  /-- Callback fires on any state transition. -/
  | anyState : Trigger S
deriving DecidableEq

/-- Runtime behaviour of a registered thunk with respect to payloads. -/
inductive CallbackSpec where
  /-- A callback registered through `wrap_callback` for a payload type whose
  runtime type identifier is `expected`; the thunk downcasts the payload and
  forwards only on an exact type match. -/
  | withPayload (expected : Nat) : CallbackSpec
  /-- A callback registered through `on_enter` / `on_transition`; the thunk
  ignores the payload entirely and always forwards. -/
  | noPayload : CallbackSpec
deriving DecidableEq, Repr

/-- A type-erased payload (`&dyn Any`): a runtime type identifier together
with an opaque representation of the value. -/
structure Payload where
  /-- Runtime type identifier of the concrete payload type. -/
  tyId : Nat
  /-- Opaque representation of the payload value. -/
  val : Nat
deriving DecidableEq, Repr

/-- The runtime type identifier reserved for the unit type `()`, the payload
supplied by a bare `trigger` call. -/
def unitTypeId : Nat := 0

/-- The unit payload `&()` supplied by `trigger`. -/
def unitPayload : Payload := ⟨unitTypeId, 0⟩

/-- A registered callback: its identity (the closure) together with the
payload behaviour of the thunk stored in the registry. -/
structure RegisteredCallback where
  /-- Identity of the user closure. -/
  cid : Nat
  /-- Payload behaviour of the wrapping thunk. -/
  spec : CallbackSpec
deriving DecidableEq, Repr

/-- Whether the thunk forwards to the user callback for a given payload.
A `wrap_callback` thunk runs `payload.downcast_ref::<P>()` and forwards only
on success, i.e. only when the runtime type ids agree; a no-payload thunk
always forwards. -/
def CallbackSpec.fires : CallbackSpec → Payload → Bool
  | .withPayload expected, payload => payload.tyId == expected
  | .noPayload, _ => true

/-- The machine, modelling `struct Machine<S, E>`. -/
structure Machine (S E : Type) where
  /-- Current state. -/
  state : S
  /-- Transition table: event to (source state to destination state). -/
  transitions : List (E × List (S × S))
  /-- Callback registry: trigger key to ordered callback list. -/
  callbacks : List (Trigger S × List RegisteredCallback)

/-- `Machine::new`. -/
def Machine.new {S E : Type} (initial_state : S) : Machine S E :=
  ⟨initial_state, [], []⟩

/-- `Machine::when`: when `event` occurs in `state`, move to `new_state`.
`self.transitions.entry(event).or_default().insert(state, new_state)`. -/
def Machine.when {S E : Type} [DecidableEq S] [DecidableEq E]
    (m : Machine S E) (event : E) (state new_state : S) : Machine S E :=
  { m with
    transitions :=
      alistModify [] (fun inner => alistInsert inner state new_state)
        m.transitions event }

/-- `Machine::when_iter`: define multiple transitions for a single event.
`self.transitions.entry(event).or_default().extend(mapping)`; `extend` on a
hash map inserts each pair in sequence, overwriting on key collision. -/
def Machine.when_iter {S E : Type} [DecidableEq S] [DecidableEq E]
    (m : Machine S E) (event : E) (mapping : List (S × S)) : Machine S E :=
  { m with
    transitions :=
      alistModify []
        (fun inner => mapping.foldl (fun acc p => alistInsert acc p.1 p.2) inner)
        m.transitions event }

/-- `Machine::events`: iterator over the keys of the transition table. -/
def Machine.events {S E : Type} (m : Machine S E) : List E :=
  m.transitions.map Prod.fst

/-- Table lookup of the destination for `(event, src)`: the composition of
`self.transitions.get(event)` and `state_map.get(&src)` performed by
`trigger_with`. -/
def Machine.lookup {S E : Type} [DecidableEq S] [DecidableEq E]
    (m : Machine S E) (event : E) (src : S) : Option S :=
  match alistFind m.transitions event with
  | none => none
  | some inner => alistFind inner src

/-- `Machine::on_enter`: register a no-payload callback for `state`.
`self.callbacks.entry(Trigger::State(state)).or_default().push(callback)`,
where the pushed thunk ignores the payload. -/
def Machine.on_enter {S E : Type} [DecidableEq S]
    (m : Machine S E) (state : S) (cid : Nat) : Machine S E :=
  { m with
    callbacks :=
      alistModify [] (fun l => l ++ [⟨cid, .noPayload⟩])
        m.callbacks (Trigger.state state) }

/-- `Machine::on_enter_with`: register a callback for `state` expecting a
payload whose runtime type identifier is `pty`; the pushed thunk is
`wrap_callback`. -/
def Machine.on_enter_with {S E : Type} [DecidableEq S]
    (m : Machine S E) (state : S) (pty : Nat) (cid : Nat) : Machine S E :=
  { m with
    callbacks :=
      alistModify [] (fun l => l ++ [⟨cid, .withPayload pty⟩])
        m.callbacks (Trigger.state state) }

/-- `Machine::on_transition`: register a no-payload callback for any
transition. -/
def Machine.on_transition {S E : Type} [DecidableEq S]
    (m : Machine S E) (cid : Nat) : Machine S E :=
  { m with
    callbacks :=
      alistModify [] (fun l => l ++ [⟨cid, .noPayload⟩])
        m.callbacks Trigger.anyState }

/-- `Machine::on_transition_with`: register a callback for any transition
expecting a payload whose runtime type identifier is `pty`. -/
def Machine.on_transition_with {S E : Type} [DecidableEq S]
    (m : Machine S E) (pty : Nat) (cid : Nat) : Machine S E :=
  { m with
    callbacks :=
      alistModify [] (fun l => l ++ [⟨cid, .withPayload pty⟩])
        m.callbacks Trigger.anyState }

/-- The callbacks consulted by a successful transition into `dst`: the list
for `Trigger::State(dst)` chained with the list for `Trigger::AnyState`. -/
def Machine.dispatchList {S E : Type} [DecidableEq S]
    (m : Machine S E) (dst : S) : List RegisteredCallback :=
  (alistFind m.callbacks (Trigger.state dst)).getD []
    ++ (alistFind m.callbacks Trigger.anyState).getD []

/-- Result of a trigger call: the machine after the call, the returned
`Result<(), MachineError>`, and the ordered trace of user callbacks whose
thunks forwarded to them. -/
structure TriggerOutcome (S E : Type) where
  /-- The machine after the call. -/
  machine : Machine S E
  /-- The returned result. -/
  result : Except MachineError Unit
  /-- Identities of the user callbacks invoked, in invocation order. -/
  fired : List Nat

/-- `Machine::trigger_with`: look up the event, then the current state; on
success assign the new state, then invoke the state-specific callbacks
followed by the any-state callbacks, each thunk deciding via its payload
check whether to forward. -/
def Machine.trigger_with {S E : Type} [DecidableEq S] [DecidableEq E]
    (m : Machine S E) (event : E) (payload : Payload) : TriggerOutcome S E :=
  match alistFind m.transitions event with
  | none => ⟨m, .error .EventInvalid, []⟩
  | some state_map =>
    match alistFind state_map m.state with
    | none => ⟨m, .error .StateInvalid, []⟩
    | some new_state =>
      let next : Machine S E := { m with state := new_state }
      ⟨next, .ok (),
        ((next.dispatchList new_state).filter
            (fun cb => cb.spec.fires payload)).map (fun cb => cb.cid)⟩

/-- `Machine::trigger`: trigger without payload, passing `&()`. -/
def Machine.trigger {S E : Type} [DecidableEq S] [DecidableEq E]
    (m : Machine S E) (event : E) : TriggerOutcome S E :=
  m.trigger_with event unitPayload

/-- The mapping a sequence of `(from, to)` pairs denotes: the destination of
the last pair whose source is `s`, if any. -/
def lastAssign {S : Type} [DecidableEq S] : List (S × S) → S → Option S
  | [], _ => none
  | (f, t) :: rest, s =>
    optOr (lastAssign rest s) (if f = s then some t else none)

/-- The callback registry of `m2` extends that of `m1` by appending `cb` at
the end of the list stored at `key`, leaving every other key unchanged. -/
def AppendsCallback {S E : Type} [DecidableEq S] (m1 m2 : Machine S E)
    (key : Trigger S) (cb : RegisteredCallback) : Prop :=
  alistFind m2.callbacks key
      = some ((alistFind m1.callbacks key).getD [] ++ [cb])
    ∧ ∀ tr, tr ≠ key → alistFind m2.callbacks tr = alistFind m1.callbacks tr

section AListLemmas

variable {α β : Type} [DecidableEq α]

theorem optOr_assoc (a b c : Option β) :
    optOr (optOr a b) c = optOr a (optOr b c) := by
  cases a <;> cases b <;> rfl

theorem alistFind_insert_self (l : List (α × β)) (k : α) (v : β) :
    alistFind (alistInsert l k v) k = some v := by
  induction l with
  | nil => simp [alistInsert, alistFind]
  | cons hd tl ih =>
    obtain ⟨k', v'⟩ := hd
    by_cases h : k' = k <;> simp [alistInsert, alistFind, h, ih]

theorem alistFind_insert_ne (l : List (α × β)) (k k' : α) (v : β)
    (h : k ≠ k') : alistFind (alistInsert l k v) k' = alistFind l k' := by
  induction l with
  | nil => simp [alistInsert, alistFind, h]
  | cons hd tl ih =>
    obtain ⟨ka, va⟩ := hd
    by_cases hk : ka = k <;> simp [alistInsert, alistFind, hk, h, ih]

theorem alistFind_insert (l : List (α × β)) (k k' : α) (v : β) :
    alistFind (alistInsert l k v) k'
      = if k = k' then some v else alistFind l k' := by
  by_cases h : k = k'
  · subst h; simp [alistFind_insert_self]
  · simp [h, alistFind_insert_ne l k k' v h]

theorem alistInsert_insert_same (l : List (α × β)) (k : α) (a b : β) :
    alistInsert (alistInsert l k a) k b = alistInsert l k b := by
  induction l with
  | nil => simp [alistInsert]
  | cons hd tl ih =>
    obtain ⟨k', v'⟩ := hd
    by_cases h : k' = k <;> simp [alistInsert, h, ih]

theorem alistModify_modify (d : β) (f g : β → β) (l : List (α × β)) (k : α) :
    alistModify d f (alistModify d g l k) k
      = alistModify d (fun v => f (g v)) l k := by
  induction l with
  | nil => simp [alistModify]
  | cons hd tl ih =>
    obtain ⟨k', v'⟩ := hd
    by_cases h : k' = k <;> simp [alistModify, h, ih]

theorem alistFind_modify_self (d : β) (f : β → β) (l : List (α × β)) (k : α) :
    alistFind (alistModify d f l k) k = some (f ((alistFind l k).getD d)) := by
  induction l with
  | nil => simp [alistModify, alistFind]
  | cons hd tl ih =>
    obtain ⟨k', v'⟩ := hd
    by_cases h : k' = k <;> simp [alistModify, alistFind, h, ih]

theorem alistFind_modify_ne (d : β) (f : β → β) (l : List (α × β)) (k k' : α)
    (h : k ≠ k') :
    alistFind (alistModify d f l k) k' = alistFind l k' := by
  induction l with
  | nil => simp [alistModify, alistFind, h]
  | cons hd tl ih =>
    obtain ⟨ka, va⟩ := hd
    by_cases hk : ka = k <;> simp [alistModify, alistFind, hk, h, ih]

theorem alistFind_modify (d : β) (f : β → β) (l : List (α × β)) (k k' : α) :
    alistFind (alistModify d f l k) k'
      = if k = k' then some (f ((alistFind l k).getD d)) else alistFind l k' := by
  by_cases h : k = k'
  · subst h; simp [alistFind_modify_self]
  · simp [h, alistFind_modify_ne d f l k k' h]

theorem alistFind_foldl_insert {S : Type} [DecidableEq S]
    (ps : List (S × S)) (l : List (S × S)) (s : S) :
    alistFind (ps.foldl (fun acc p => alistInsert acc p.1 p.2) l) s
      = optOr (lastAssign ps s) (alistFind l s) := by
  induction ps generalizing l with
  | nil => simp [lastAssign, optOr]
  | cons hd tl ih =>
    obtain ⟨f, t⟩ := hd
    rw [List.foldl_cons, ih, lastAssign, optOr_assoc]
    have : optOr (if f = s then some t else none) (alistFind l s)
        = alistFind (alistInsert l f t) s := by
      rw [alistFind_insert]
      by_cases h : f = s <;> simp [h, optOr]
    rw [this]

theorem mem_keys_iff_find_isSome (l : List (α × β)) (k : α) :
    k ∈ l.map Prod.fst ↔ (alistFind l k).isSome = true := by
  induction l with
  | nil => simp [alistFind]
  | cons hd tl ih =>
    obtain ⟨k', v'⟩ := hd
    by_cases h : k' = k <;> simp [alistFind, h, ih]
    exact fun hk => (h hk.symm).elim

theorem keys_modify_of_found (d : β) (f : β → β) (l : List (α × β)) (k : α)
    (h : (alistFind l k).isSome = true) :
    (alistModify d f l k).map Prod.fst = l.map Prod.fst := by
  induction l with
  | nil => simp [alistFind] at h
  | cons hd tl ih =>
    obtain ⟨k', v'⟩ := hd
    by_cases hk : k' = k
    · simp [alistModify, hk]
    · simp [alistFind, hk] at h
      simp [alistModify, hk, ih h]

theorem keys_modify_of_missing (d : β) (f : β → β) (l : List (α × β)) (k : α)
    (h : alistFind l k = none) :
    (alistModify d f l k).map Prod.fst = l.map Prod.fst ++ [k] := by
  induction l with
  | nil => simp [alistModify]
  | cons hd tl ih =>
    obtain ⟨k', v'⟩ := hd
    by_cases hk : k' = k
    · simp [alistFind, hk] at h
    · simp [alistFind, hk] at h
      simp [alistModify, hk, ih h]

theorem nodup_keys_modify (d : β) (f : β → β) (l : List (α × β)) (k : α)
    (h : (l.map Prod.fst).Nodup) :
    ((alistModify d f l k).map Prod.fst).Nodup := by
  cases hf : alistFind l k with
  | some v =>
    rw [keys_modify_of_found d f l k (by simp [hf])]
    exact h
  | none =>
    rw [keys_modify_of_missing d f l k hf]
    have hk : k ∉ l.map Prod.fst := by
      rw [mem_keys_iff_find_isSome, hf]
      simp
    simp [List.nodup_append, h, hk]

end AListLemmas

section TriggerLemmas

variable {S E : Type} [DecidableEq S] [DecidableEq E]

theorem trigger_with_of_lookup (m : Machine S E) (e : E) (p : Payload) (dst : S)
    (h : m.lookup e m.state = some dst) :
    m.trigger_with e p
      = ⟨{ m with state := dst }, .ok (),
          ((m.dispatchList dst).filter (fun cb => cb.spec.fires p)).map
            (fun cb => cb.cid)⟩ := by
  cases hf : alistFind m.transitions e with
  | none => simp [Machine.lookup, hf] at h
  | some inner =>
    cases hg : alistFind inner m.state with
    | none => simp [Machine.lookup, hf, hg] at h
    | some dst' =>
      have hd : dst' = dst := by
        simpa [Machine.lookup, hf, hg] using h
      subst hd
      simp [Machine.trigger_with, hf, hg]
      rfl

theorem trigger_with_of_no_event (m : Machine S E) (e : E) (p : Payload)
    (h : alistFind m.transitions e = none) :
    m.trigger_with e p = ⟨m, .error .EventInvalid, []⟩ := by
  simp [Machine.trigger_with, h]

theorem trigger_with_of_no_source (m : Machine S E) (e : E) (p : Payload)
    (inner : List (S × S)) (h1 : alistFind m.transitions e = some inner)
    (h2 : alistFind inner m.state = none) :
    m.trigger_with e p = ⟨m, .error .StateInvalid, []⟩ := by
  simp [Machine.trigger_with, h1, h2]

theorem mem_fired_iff (l : List RegisteredCallback) (p : Payload) (c : Nat) :
    c ∈ (l.filter (fun cb => cb.spec.fires p)).map (fun cb => cb.cid)
      ↔ ∃ cb ∈ l, cb.cid = c ∧ cb.spec.fires p = true := by
  rw [List.mem_map]
  constructor
  · rintro ⟨cb, hmem, hcid⟩
    rw [List.mem_filter] at hmem
    exact ⟨cb, hmem.1, hcid, hmem.2⟩
  · rintro ⟨cb, hmem, hcid, hfire⟩
    exact ⟨cb, List.mem_filter.mpr ⟨hmem, hfire⟩, hcid⟩

end TriggerLemmas

theorem appendsCallback_modify {S E : Type} [DecidableEq S]
    (m : Machine S E) (key : Trigger S) (cb : RegisteredCallback) :
    AppendsCallback m
      { m with callbacks := alistModify [] (fun l => l ++ [cb]) m.callbacks key }
      key cb := by
  constructor
  · simp [alistFind_modify_self]
  · intro tr htr
    exact alistFind_modify_ne [] _ m.callbacks key tr (fun h => htr h.symm)

/-- Claim C1: for every event `e` and states `s1`, `s2`, if the transition
table maps `(e, s1)` to `s2` and the current state is `s1`, then
`trigger_with(e, p)` returns success for any payload `p` and afterwards the
current state equals `s2`. -/
theorem C1_trigger_follows_table {S E : Type} [DecidableEq S] [DecidableEq E]
    (m : Machine S E) (e : E) (s2 : S) (p : Payload)
    (h : m.lookup e m.state = some s2) :
    (m.trigger_with e p).result = .ok ()
      ∧ (m.trigger_with e p).machine.state = s2 := by
  rw [trigger_with_of_lookup m e p s2 h]
  exact ⟨rfl, rfl⟩

/-- Witness for claim C1 on a concrete machine. -/
theorem C1_witness :
    (((Machine.new 0 : Machine Nat Nat).when 1 0 7).lookup 1
        ((Machine.new 0 : Machine Nat Nat).when 1 0 7).state = some 7)
    ∧ ((((Machine.new 0 : Machine Nat Nat).when 1 0 7).trigger_with 1
          ⟨3, 4⟩).result = .ok ()
        ∧ (((Machine.new 0 : Machine Nat Nat).when 1 0 7).trigger_with 1
            ⟨3, 4⟩).machine.state = 7) :=
  ⟨by decide, C1_trigger_follows_table _ 1 7 ⟨3, 4⟩ (by decide)⟩

/-- Claim C2: a callback registered with declared payload type `P` (through
`on_enter_with` or `on_transition_with`) is invoked on a successful trigger
if and only if the runtime type of the supplied payload is exactly `P`;
any other payload type is silently skipped with the trigger still
succeeding; and a bare `trigger` supplies the unit payload, so the callback
fires from bare `trigger` exactly when `P` is the unit type. -/
theorem C2_payload_type_match {S E : Type} [DecidableEq S] [DecidableEq E]
    (m : Machine S E) (e : E) (p : Payload) (dst : S) (cid pty : Nat)
    (hdst : m.lookup e m.state = some dst)
    (hmem : (⟨cid, .withPayload pty⟩ : RegisteredCallback) ∈ m.dispatchList dst)
    (huniq : ∀ cb ∈ m.dispatchList dst,
        cb.cid = cid → cb.spec = CallbackSpec.withPayload pty) :
    ((m.trigger_with e p).result = .ok ()
        ∧ (cid ∈ (m.trigger_with e p).fired ↔ p.tyId = pty))
      ∧ ((m.trigger e).result = .ok ()
        ∧ (cid ∈ (m.trigger e).fired ↔ pty = unitTypeId)) := by
  have key : ∀ q : Payload, cid ∈ (m.trigger_with e q).fired ↔ q.tyId = pty := by
    intro q
    rw [trigger_with_of_lookup m e q dst hdst]
    show cid ∈ ((m.dispatchList dst).filter _).map _ ↔ _
    rw [mem_fired_iff]
    constructor
    · rintro ⟨cb, hcb, hcid, hfire⟩
      rw [huniq cb hcb hcid] at hfire
      simpa [CallbackSpec.fires] using hfire
    · intro hty
      exact ⟨⟨cid, .withPayload pty⟩, hmem, rfl,
        by simp [CallbackSpec.fires, hty]⟩
  have hok : ∀ q : Payload, (m.trigger_with e q).result = .ok () := by
    intro q
    rw [trigger_with_of_lookup m e q dst hdst]
  refine ⟨⟨hok p, key p⟩, hok unitPayload, ?_⟩
  simpa [unitPayload, unitTypeId, eq_comm] using key unitPayload

/-- Witness for claim C2 on a concrete machine with one typed callback. -/
theorem C2_witness :
    ((((Machine.new 0 : Machine Nat Nat).when 1 0 7).on_enter_with 7 5
          100).trigger_with 1 ⟨5, 9⟩).result = .ok ()
      ∧ (100 ∈ ((((Machine.new 0 : Machine Nat Nat).when 1 0 7).on_enter_with
            7 5 100).trigger_with 1 ⟨5, 9⟩).fired ↔ (5 : Nat) = 5) :=
  (C2_payload_type_match _ 1 ⟨5, 9⟩ 7 100 5 (by decide) (by decide)
    (by decide)).1

/-- Claim C3: a no-payload callback registered for state `X` through
`on_enter` is invoked on every successful transition into `X`, whatever
payload the triggering call supplies. -/
theorem C3_no_payload_always_fires {S E : Type} [DecidableEq S] [DecidableEq E]
    (m : Machine S E) (e : E) (p : Payload) (dst : S) (cid : Nat)
    (hdst : m.lookup e m.state = some dst)
    (hmem : (⟨cid, .noPayload⟩ : RegisteredCallback)
        ∈ (alistFind m.callbacks (Trigger.state dst)).getD []) :
    (m.trigger_with e p).result = .ok ()
      ∧ cid ∈ (m.trigger_with e p).fired := by
  rw [trigger_with_of_lookup m e p dst hdst]
  refine ⟨rfl, ?_⟩
  show cid ∈ ((m.dispatchList dst).filter _).map _
  rw [mem_fired_iff]
  exact ⟨⟨cid, .noPayload⟩, List.mem_append_left _ hmem, rfl, rfl⟩

/-- Witness for claim C3: a non-unit payload still fires the no-payload
callback. -/
theorem C3_witness :
    ((((Machine.new 0 : Machine Nat Nat).when 1 0 7).on_enter 7
          100).trigger_with 1 ⟨5, 9⟩).result = .ok ()
      ∧ 100 ∈ ((((Machine.new 0 : Machine Nat Nat).when 1 0 7).on_enter 7
          100).trigger_with 1 ⟨5, 9⟩).fired :=
  C3_no_payload_always_fires _ 1 ⟨5, 9⟩ 7 100 (by decide) (by decide)

/-- Claim C4: on every successful trigger the invoked callbacks are exactly
those for the destination state followed by the any-state ones, each group
in registration order; every invoked callback comes from one of those two
lists, so callbacks registered only for a different state never run; and
each registration operation appends at the end of the list for its key,
leaving the other lists untouched. -/
theorem C4_dispatch_order {S E : Type} [DecidableEq S] [DecidableEq E]
    (m : Machine S E) (e : E) (p : Payload) (dst s : S) (pty cid : Nat)
    (hdst : m.lookup e m.state = some dst) :
    ((m.trigger_with e p).fired
        = (((alistFind m.callbacks (Trigger.state dst)).getD []).filter
              (fun cb => cb.spec.fires p)).map (fun cb => cb.cid)
          ++ (((alistFind m.callbacks Trigger.anyState).getD []).filter
              (fun cb => cb.spec.fires p)).map (fun cb => cb.cid))
      ∧ (∀ c ∈ (m.trigger_with e p).fired,
          ∃ cb ∈ m.dispatchList dst, cb.cid = c)
      ∧ AppendsCallback m (m.on_enter s cid) (Trigger.state s)
          ⟨cid, .noPayload⟩
      ∧ AppendsCallback m (m.on_enter_with s pty cid) (Trigger.state s)
          ⟨cid, .withPayload pty⟩
      ∧ AppendsCallback m (m.on_transition cid) Trigger.anyState
          ⟨cid, .noPayload⟩
      ∧ AppendsCallback m (m.on_transition_with pty cid) Trigger.anyState
          ⟨cid, .withPayload pty⟩ := by
  refine ⟨?_, ?_, ?_, ?_, ?_, ?_⟩
  · rw [trigger_with_of_lookup m e p dst hdst]
    show ((m.dispatchList dst).filter _).map _ = _
    rw [Machine.dispatchList, List.filter_append, List.map_append]
  · intro c hc
    rw [trigger_with_of_lookup m e p dst hdst] at hc
    replace hc := (mem_fired_iff _ _ _).mp hc
    obtain ⟨cb, hcb, hcid, _⟩ := hc
    exact ⟨cb, hcb, hcid⟩
  · exact appendsCallback_modify m (Trigger.state s) ⟨cid, .noPayload⟩
  · exact appendsCallback_modify m (Trigger.state s) ⟨cid, .withPayload pty⟩
  · exact appendsCallback_modify m Trigger.anyState ⟨cid, .noPayload⟩
  · exact appendsCallback_modify m Trigger.anyState ⟨cid, .withPayload pty⟩

/-- Witness for claim C4: the fired trace on a machine with one callback of
each group, in the expected order. -/
theorem C4_witness :
    (((((Machine.new 0 : Machine Nat Nat).when 1 0 7).on_enter 7
          100).on_transition 200).trigger_with 1 ⟨5, 9⟩).fired
      = (((alistFind ((((Machine.new 0 : Machine Nat Nat).when 1 0
              7).on_enter 7 100).on_transition 200).callbacks
            (Trigger.state 7)).getD []).filter
          (fun cb => cb.spec.fires ⟨5, 9⟩)).map (fun cb => cb.cid)
        ++ (((alistFind ((((Machine.new 0 : Machine Nat Nat).when 1 0
              7).on_enter 7 100).on_transition 200).callbacks
            Trigger.anyState).getD []).filter
          (fun cb => cb.spec.fires ⟨5, 9⟩)).map (fun cb => cb.cid) :=
  (C4_dispatch_order _ 1 ⟨5, 9⟩ 7 3 5 100 (by decide)).1

/-- Claim C5 counterexample: after `when_iter 5 []` the event `5` has an
entry with an empty inner map, so no transition is defined anywhere for it,
yet triggering `5` returns `StateInvalid` rather than `EventInvalid`. -/
theorem C5_counterexample :
    alistFind (((Machine.new 0 : Machine Nat Nat).when_iter 5
        []).transitions) 5 = some []
      ∧ (((Machine.new 0 : Machine Nat Nat).when_iter 5 []).trigger
          5).result = .error MachineError.StateInvalid :=
  ⟨rfl, rfl⟩

/-- Claim C5 as amended: for every event `e` with no entry in the transition
table (never passed to `when` or `when_iter`), `trigger_with(e, p)` and
`trigger(e)` return `EventInvalid`, invoke no callback, and leave the
machine unchanged; an event registered by `when_iter` with an empty mapping
has an entry, so it yields `StateInvalid` instead. -/
theorem C5_unknown_event {S E : Type} [DecidableEq S] [DecidableEq E]
    (m : Machine S E) (e : E) (p : Payload)
    (h : alistFind m.transitions e = none) :
    m.trigger_with e p = ⟨m, .error .EventInvalid, []⟩
      ∧ m.trigger e = ⟨m, .error .EventInvalid, []⟩ :=
  ⟨trigger_with_of_no_event m e p h,
    trigger_with_of_no_event m e unitPayload h⟩

/-- Witness for the amended claim C5 on a machine that knows event `1` but
not event `2`. -/
theorem C5_witness :
    ((Machine.new 0 : Machine Nat Nat).when 1 0 7).trigger_with 2 ⟨5, 9⟩
        = ⟨(Machine.new 0 : Machine Nat Nat).when 1 0 7,
            .error .EventInvalid, []⟩
      ∧ ((Machine.new 0 : Machine Nat Nat).when 1 0 7).trigger 2
        = ⟨(Machine.new 0 : Machine Nat Nat).when 1 0 7,
            .error .EventInvalid, []⟩ :=
  C5_unknown_event _ 2 ⟨5, 9⟩ (by decide)

/-- Claim C6: for every event with at least one defined transition but none
from the current state, `trigger_with` (and `trigger`) returns
`StateInvalid`, invokes no callback, and leaves the machine unchanged. -/
theorem C6_unknown_state {S E : Type} [DecidableEq S] [DecidableEq E]
    (m : Machine S E) (e : E) (p : Payload) (inner : List (S × S)) (s s' : S)
    (hinner : alistFind m.transitions e = some inner)
    (hdef : alistFind inner s = some s')
    (hcur : alistFind inner m.state = none) :
    m.trigger_with e p = ⟨m, .error .StateInvalid, []⟩
      ∧ m.trigger e = ⟨m, .error .StateInvalid, []⟩ :=
  ⟨trigger_with_of_no_source m e p inner hinner hcur,
    trigger_with_of_no_source m e unitPayload inner hinner hcur⟩

/-- Witness for claim C6: event `1` is defined only from state `5`, so it
fails with `StateInvalid` from state `0`. -/
theorem C6_witness :
    ((Machine.new 0 : Machine Nat Nat).when 1 5 6).trigger_with 1 ⟨5, 9⟩
        = ⟨(Machine.new 0 : Machine Nat Nat).when 1 5 6,
            .error .StateInvalid, []⟩
      ∧ ((Machine.new 0 : Machine Nat Nat).when 1 5 6).trigger 1
        = ⟨(Machine.new 0 : Machine Nat Nat).when 1 5 6,
            .error .StateInvalid, []⟩ :=
  C6_unknown_state _ 1 ⟨5, 9⟩ [(5, 6)] 5 6 (by decide) (by decide) (by decide)

/-- Claim C7: redefining a transition overwrites the previous one: `when e s
a` followed by `when e s b` produces the same machine as `when e s b` alone;
afterwards the table maps `(e, s)` to `b`, and a trigger of `e` from state
`s` succeeds and moves to `b`; within a single `when_iter` call the
destination stored for any source is that of the last pair with that
source, falling back to the previous table entry. -/
theorem C7_overwrite {S E : Type} [DecidableEq S] [DecidableEq E]
    (m : Machine S E) (e : E) (s a b s0 : S) (ps : List (S × S)) :
    ((m.when e s a).when e s b = m.when e s b)
      ∧ ((m.when e s b).lookup e s = some b)
      ∧ (∀ p : Payload,
          (({ m.when e s b with state := s } : Machine S E).trigger_with e
              p).result = .ok ()
            ∧ (({ m.when e s b with state := s } : Machine S E).trigger_with
                e p).machine.state = b)
      ∧ ((m.when_iter e ps).lookup e s0
          = optOr (lastAssign ps s0) (m.lookup e s0)) := by
  have hlkb : ∀ m' : Machine S E, (m'.when e s b).lookup e s = some b := by
    intro m'
    simp [Machine.lookup, Machine.when, alistFind_modify_self,
      alistFind_insert_self]
  refine ⟨?_, hlkb m, ?_, ?_⟩
  · show ({ m with transitions := _ } : Machine S E)
        = { m with transitions := _ }
    rw [Machine.mk.injEq]
    refine ⟨rfl, ?_, rfl⟩
    show alistModify [] (fun inner => alistInsert inner s b)
        (alistModify [] (fun inner => alistInsert inner s a)
          m.transitions e) e = _
    rw [alistModify_modify]
    have : (fun v => alistInsert (alistInsert v s a) s b)
        = fun v => alistInsert v s b := by
      funext v
      exact alistInsert_insert_same v s a b
    rw [this]
  · intro p
    have hlk : ({ m.when e s b with state := s } : Machine S E).lookup e
        ({ m.when e s b with state := s } : Machine S E).state = some b :=
      hlkb m
    rw [trigger_with_of_lookup _ e p b hlk]
    exact ⟨rfl, rfl⟩
  · cases hf : alistFind m.transitions e with
    | none =>
      simp [Machine.lookup, Machine.when_iter, hf, alistFind_modify_self,
        alistFind_foldl_insert, alistFind]
    | some inner =>
      simp [Machine.lookup, Machine.when_iter, hf, alistFind_modify_self,
        alistFind_foldl_insert]

/-- Claim C8 counterexample: `when_iter 5 []` creates an entry with an empty
inner map for event `5`, so `events()` reports `5` even though no transition
is defined for it. -/
theorem C8_counterexample :
    ((Machine.new 0 : Machine Nat Nat).when_iter 5 []).events = [5]
      ∧ alistFind ((Machine.new 0 : Machine Nat Nat).when_iter 5
          []).transitions 5 = some [] :=
  ⟨rfl, rfl⟩

/-- Claim C8 as amended: `events()` returns exactly the events having an
entry in the transition table, that is the events passed to at least one
`when` or `when_iter` call, with duplicates collapsed (the key list stays
duplicate-free under both operations); an event passed to `when_iter` with
an empty mapping is included even though it has no defined transition. -/
theorem C8_events {S E : Type} [DecidableEq S] [DecidableEq E]
    (m : Machine S E) (e e' : E) (s a : S) (ps : List (S × S))
    (h : m.events.Nodup) :
    (e ∈ m.events ↔ (alistFind m.transitions e).isSome = true)
      ∧ (m.when e' s a).events.Nodup
      ∧ (m.when_iter e' ps).events.Nodup := by
  refine ⟨mem_keys_iff_find_isSome m.transitions e, ?_, ?_⟩
  · have := nodup_keys_modify ([] : List (S × S))
      (fun inner => alistInsert inner s a) m.transitions e' h
    simpa [Machine.events, Machine.when] using this
  · have := nodup_keys_modify ([] : List (S × S))
      (fun inner => ps.foldl (fun acc p => alistInsert acc p.1 p.2) inner)
      m.transitions e' h
    simpa [Machine.events, Machine.when_iter] using this

/-- Witness for the amended claim C8. -/
theorem C8_witness :
    ((1 ∈ ((Machine.new 0 : Machine Nat Nat).when 1 0 7).events
        ↔ (alistFind ((Machine.new 0 : Machine Nat Nat).when 1 0
            7).transitions 1).isSome = true)
      ∧ (((Machine.new 0 : Machine Nat Nat).when 1 0 7).when 2 3
          4).events.Nodup
      ∧ (((Machine.new 0 : Machine Nat Nat).when 1 0 7).when_iter 2
          [(3, 4)]).events.Nodup) :=
  C8_events _ 1 2 3 4 [(3, 4)] (by decide)

/-- Claim C9: a failed trigger is atomic: when the result is an error, no
callback was invoked and the machine, including its current state,
transition table and callback registry, is unchanged. -/
theorem C9_error_atomic {S E : Type} [DecidableEq S] [DecidableEq E]
    (m : Machine S E) (e : E) (p : Payload) (err : MachineError)
    (h : (m.trigger_with e p).result = .error err) :
    (m.trigger_with e p).machine = m ∧ (m.trigger_with e p).fired = [] := by
  cases hf : alistFind m.transitions e with
  | none =>
    rw [trigger_with_of_no_event m e p hf]
    exact ⟨rfl, rfl⟩
  | some inner =>
    cases hg : alistFind inner m.state with
    | none =>
      rw [trigger_with_of_no_source m e p inner hf hg]
      exact ⟨rfl, rfl⟩
    | some dst =>
      have hlk : m.lookup e m.state = some dst := by
        simp [Machine.lookup, hf, hg]
      rw [trigger_with_of_lookup m e p dst hlk] at h
      exact Except.noConfusion h

/-- Witness for claim C9 on the empty machine. -/
theorem C9_witness :
    ((Machine.new 0 : Machine Nat Nat).trigger_with 9 ⟨1, 2⟩).machine
        = (Machine.new 0 : Machine Nat Nat)
      ∧ ((Machine.new 0 : Machine Nat Nat).trigger_with 9 ⟨1, 2⟩).fired
        = [] :=
  C9_error_atomic _ 9 ⟨1, 2⟩ .EventInvalid rfl

/-- Claim C10: registration operations never touch the current state; `when`
and `when_iter` leave the callback registry unchanged; the four
callback-registration operations leave the transition table unchanged. -/
theorem C10_registration_frame {S E : Type} [DecidableEq S] [DecidableEq E]
    (m : Machine S E) (e : E) (s t : S) (ps : List (S × S)) (pty cid : Nat) :
    ((m.when e s t).state = m.state
        ∧ (m.when e s t).callbacks = m.callbacks)
      ∧ ((m.when_iter e ps).state = m.state
        ∧ (m.when_iter e ps).callbacks = m.callbacks)
      ∧ ((m.on_enter s cid).state = m.state
        ∧ (m.on_enter s cid).transitions = m.transitions)
      ∧ ((m.on_enter_with s pty cid).state = m.state
        ∧ (m.on_enter_with s pty cid).transitions = m.transitions)
      ∧ ((m.on_transition cid).state = m.state
        ∧ (m.on_transition cid).transitions = m.transitions)
      ∧ ((m.on_transition_with pty cid).state = m.state
        ∧ (m.on_transition_with pty cid).transitions = m.transitions) :=
  ⟨⟨rfl, rfl⟩, ⟨rfl, rfl⟩, ⟨rfl, rfl⟩, ⟨rfl, rfl⟩, ⟨rfl, rfl⟩, ⟨rfl, rfl⟩⟩

end Nanomachine
